import Mathlib

/-!
Shallow embedding of the Parcl v3 API client (Rust crate `parcl-v3-api-client`).

The embedding follows the source files:
  * `src/serde_utils/field_as_string.rs`, `optional_field_as_string.rs`,
    `pubkey_vec.rs`, `pubkey_values_map.rs`, `field_as_base64.rs`
  * `src/request.rs` (payload shapes, identifier unions, slippage setting)
  * `src/response.rs` (wire response shapes, internal/public split)
  * `src/lib.rs` (client methods, status validation, response decoding)

Machine integers are modelled as `Nat`/`Int` with explicit bounds where the
Rust width matters.  Wire text is modelled as `List Char`.  Fallible code
returns `Option`/`Except`.
-/

/-! ## Decimal digits (Rust `ToString`/`FromStr` for integers) -/

/-- Little-endian base-`base` digits of `n`, computed with explicit fuel so the
definition is structurally recursive and kernel-evaluable. -/
def digitsLEAux (base : Nat) : Nat → Nat → List Nat
  | 0, _ => []
  | fuel + 1, n => if n = 0 then [] else n % base :: digitsLEAux base fuel (n / base)

/-- Little-endian base-`base` digits of `n`. -/
def natDigitsLE (base n : Nat) : List Nat := digitsLEAux base n n

/-- Big-endian base-`base` digits of `n` (most significant first, empty for 0). -/
def natDigitsBE (base n : Nat) : List Nat := (natDigitsLE base n).reverse

/-- The ASCII character for a decimal digit value. -/
def decDigitChar (d : Nat) : Char := Char.ofNat (48 + d)

/-- The numeric value of an ASCII decimal digit character. -/
def decDigitVal (c : Char) : Nat := c.toNat - 48

/-- Rust `u64::to_string` / `u128::to_string`: canonical decimal text of an
unsigned integer (source: `field_as_string::serialize` calls `to_string`). -/
def natToChars (n : Nat) : List Char :=
  if n = 0 then ['0'] else (natDigitsBE 10 n).map decDigitChar

/-- Rust `i128::to_string`: a leading minus sign for negative values, then the
decimal magnitude. -/
def intToChars (v : Int) : List Char :=
  if v < 0 then '-' :: natToChars v.natAbs else natToChars v.natAbs

/-- The digit-accumulation step of Rust integer parsing. -/
def decAccum (cs : List Char) : Nat :=
  cs.foldl (fun a c => a * 10 + decDigitVal c) 0

/-- Parse a run of ASCII decimal digits: fails on an empty run or on any
non-digit character (Rust `from_str_radix` digit loop). -/
def parseDigitsVal (cs : List Char) : Option Nat :=
  if cs.isEmpty then none
  else if cs.all Char.isDigit then some (decAccum cs)
  else none

/-- Rust integer parsing strips one leading `+` sign (unsigned types accept an
optional leading plus). -/
def stripPlus : List Char → List Char
  | [] => []
  | c :: r => if c = '+' then r else c :: r

/-- Rust `uN::from_str` for the unsigned type whose exclusive upper bound is
`bound`: optional `+`, then digits, overflow-checked against the width. -/
def rustParseUnsigned (bound : Nat) (cs : List Char) : Option Nat :=
  match parseDigitsVal (stripPlus cs) with
  | some n => if n < bound then some n else none
  | none => none

/-- Rust `iN::from_str` for the signed type whose magnitude bound is `bound`
(`bound = 2^(w-1)`): optional sign, digits, overflow-checked; the most negative
value `-bound` is accepted, positive values must stay below `bound`. -/
def rustParseSigned (bound : Nat) (cs : List Char) : Option Int :=
  match cs with
  | [] => none
  | c :: r =>
    if c = '-' then
      match parseDigitsVal r with
      | some n => if n ≤ bound then some (-(n : Int)) else none
      | none => none
    else
      match parseDigitsVal (if c = '+' then r else c :: r) with
      | some n => if n < bound then some (n : Int) else none
      | none => none

/-- Exclusive upper bound of Rust `u32` (`MarketId`, `MarginAccountId`). -/
def U32_BOUND : Nat := 2 ^ 32

/-- Exclusive upper bound of Rust `u64` (`ExchangeId`). -/
def U64_BOUND : Nat := 2 ^ 64

/-- Magnitude bound of Rust `i128` (`size_delta` and margin fields). -/
def I128_BOUND : Nat := 2 ^ 127

/-! ## Base58 and `Pubkey` (solana-sdk `Pubkey::from_str` / `to_string`) -/

/-- The bs58 alphabet used by solana addresses. -/
def B58_ALPHABET : List Char :=
  "123456789ABCDEFGHJKLMNPQRSTUVWXYZabcdefghijkmnopqrstuvwxyz".toList

/-- Value of a base58 character (`none` when the character is not in the
alphabet). -/
def b58CharVal (c : Char) : Option Nat := B58_ALPHABET.findIdx? (· == c)

/-- The base58 character for a digit value below 58. -/
def b58ValChar (d : Nat) : Char := B58_ALPHABET.getD d '?'

/-- Number of leading zero bytes of a byte list (bs58 encodes each as `'1'`). -/
def leadingZeroBytes (l : List Nat) : Nat := (l.takeWhile (· == 0)).length

/-- Number of leading `'1'` characters of base58 text (bs58 decodes each as a
zero byte). -/
def leadingOneChars (cs : List Char) : Nat := (cs.takeWhile (· == '1')).length

/-- Big-endian value of a digit list in base `base`. -/
def beValue (base : Nat) (ds : List Nat) : Nat :=
  ds.foldl (fun a d => a * base + d) 0

/-- All-or-nothing traversal: `some` of the image when `f` succeeds on every
element, otherwise `none` (Rust `collect::<Result<Vec<_>,_>>` over a map). -/
def mapOptionAll {α β : Type} (f : α → Option β) : List α → Option (List β)
  | [] => some []
  | a :: l =>
    match f a with
    | some b => (mapOptionAll f l).map (b :: ·)
    | none => none

/-- bs58 encoding of a byte list: one `'1'` per leading zero byte, then the
base58 digits of the big-endian value of the bytes. -/
def b58Encode (bytes : List Nat) : List Char :=
  List.replicate (leadingZeroBytes bytes) '1' ++
    (natDigitsBE 58 (beValue 256 bytes)).map b58ValChar

/-- bs58 decoding: every character must be in the alphabet; the result is one
zero byte per leading `'1'`, then the big-endian base-256 bytes of the value. -/
def b58Decode (cs : List Char) : Option (List Nat) :=
  (mapOptionAll b58CharVal cs).map
    (fun ds => List.replicate (leadingOneChars cs) 0 ++ natDigitsBE 256 (beValue 58 ds))

/-- A solana address: exactly 32 bytes. -/
structure Pubkey where
  bytes : List Nat
  size_eq : bytes.length = 32
  bytes_lt : ∀ b ∈ bytes, b < 256

instance : DecidableEq Pubkey := fun a b =>
  if h : a.bytes = b.bytes then
    .isTrue (by cases a; cases b; cases h; rfl)
  else .isFalse (fun hab => h (congrArg Pubkey.bytes hab))

/-- `Pubkey::to_string` (bs58 encoding of the 32 bytes). -/
def Pubkey.toBase58 (a : Pubkey) : List Char := b58Encode a.bytes

/-- `Pubkey::from_str`: reject overlong text, bs58-decode, require exactly 32
bytes. -/
def Pubkey.fromStr (cs : List Char) : Option Pubkey :=
  if cs.length > 44 then none
  else
    match b58Decode cs with
    | none => none
    | some l =>
      if h : l.length = 32 ∧ ∀ b ∈ l, b < 256 then some ⟨l, h.1, h.2⟩ else none

/-! ## Identifier unions (`request.rs`: `ExchangeIdentifier`,
`MarginAccountIdentifier`, `MarketIdentifier`) -/

/-- The two-variant identifier union shared by the three identifier families
(`Id` numeric / `Address`), declared in the source's variant order. -/
inductive Identifier where
  | Id (id : Nat)
  | Address (address : Pubkey)
deriving DecidableEq

/-- `Display` for the identifier unions: the inner value's canonical text with
no discriminator; also the untagged `field_as_string` serialization. -/
def Identifier.toChars : Identifier → List Char
  | .Id id => natToChars id
  | .Address address => address.toBase58

/-- Untagged deserialization of an identifier union whose numeric variant has
exclusive bound `bound`: try the numeric variant first (serde tries variants in
declaration order), then the address variant; when neither matches, serde's
untagged derive fails with its generic mismatch message naming the enum
(`enumName`) and carrying no raw input text. -/
def deserializeIdentifier (bound : Nat) (enumName : List Char) (cs : List Char) :
    Except (List Char) Identifier :=
  match rustParseUnsigned bound cs with
  | some n => .ok (.Id n)
  | none =>
    match Pubkey.fromStr cs with
    | some a => .ok (.Address a)
    | none => .error ("data did not match any variant of untagged enum ".toList ++ enumName)

/-- `ExchangeIdentifier` decoding (numeric variant is `u64`). -/
def ExchangeIdentifier.deserialize : List Char → Except (List Char) Identifier :=
  deserializeIdentifier U64_BOUND ("ExchangeIdentifier".toList)

/-- `MarginAccountIdentifier` decoding (numeric variant is `u32`). -/
def MarginAccountIdentifier.deserialize : List Char → Except (List Char) Identifier :=
  deserializeIdentifier U32_BOUND ("MarginAccountIdentifier".toList)

/-- `MarketIdentifier` decoding (numeric variant is `u32`). -/
def MarketIdentifier.deserialize : List Char → Except (List Char) Identifier :=
  deserializeIdentifier U32_BOUND ("MarketIdentifier".toList)

/-! ## JSON wire values -/

/-- JSON values as produced/consumed by serde_json (numbers restricted to
integers, which is all this wire format uses). -/
inductive Json where
  | null
  | bool (b : Bool)
  | num (n : Int)
  | str (s : List Char)
  | arr (elems : List Json)
  | obj (fields : List (List Char × Json))

/-- Number of fields of a JSON object (0 for non-objects). -/
def Json.objLength : Json → Nat
  | .obj fields => fields.length
  | _ => 0

/-- Look up a field of a JSON object. -/
def Json.getField : Json → List Char → Option Json
  | .obj fields, k => (fields.find? (fun kv => kv.1 == k)).map (fun kv => kv.2)
  | _, _ => none

/-- A JSON string, or nothing. -/
def Json.asStr : Json → Option (List Char)
  | .str s => some s
  | _ => none

/-! ## Slippage setting (`request.rs`) -/

/-- `SlippageSetting`: a true exclusive choice between an acceptable price and
a tolerance in basis points. -/
inductive SlippageSetting where
  | AcceptablePrice (price : Nat)
  | SlippageToleranceBps (bps : Nat)
deriving DecidableEq

/-- `SlippageSetting::as_request_fields`: the pair
`(acceptable_price, slippage_tolerance_bps)` of wire fields. -/
def SlippageSetting.as_request_fields : SlippageSetting → Option Nat × Option Nat
  | .AcceptablePrice price => (some price, none)
  | .SlippageToleranceBps bps => (none, some bps)

/-! ## Request payloads (`request.rs`) -/

/-- `ClosePositionPayload` (note: no `size_delta` field). -/
structure ClosePositionPayload where
  owner : Pubkey
  margin_account_id : Identifier
  market_id : Nat
  acceptable_price : Option Nat
  slippage_tolerance_bps : Option Nat
  exchange_id : Option Identifier
  priority_fee_percentile : Option Nat

/-- `ModifyPositionPayload`. -/
structure ModifyPositionPayload where
  owner : Pubkey
  margin_account_id : Identifier
  market_id : Nat
  size_delta : Int
  acceptable_price : Option Nat
  slippage_tolerance_bps : Option Nat
  exchange_id : Option Identifier
  priority_fee_percentile : Option Nat

/-- `ModifyPositionQuotePayload` (no priority-fee field). -/
structure ModifyPositionQuotePayload where
  owner : Pubkey
  margin_account_id : Identifier
  market_id : Nat
  size_delta : Int
  acceptable_price : Option Nat
  slippage_tolerance_bps : Option Nat
  exchange_id : Option Identifier

/-- `ModifyPositionPayload::new_with_defaults`. -/
def ModifyPositionPayload.new_with_defaults (owner : Pubkey) (margin_account_id : Identifier)
    (market_id : Nat) (size_delta : Int) (slippage_setting : SlippageSetting) :
    ModifyPositionPayload :=
  let fields := slippage_setting.as_request_fields
  { owner := owner
    margin_account_id := margin_account_id
    market_id := market_id
    size_delta := size_delta
    acceptable_price := fields.1
    slippage_tolerance_bps := fields.2
    exchange_id := none
    priority_fee_percentile := none }

/-- `ModifyPositionQuotePayload::new_with_defaults`. -/
def ModifyPositionQuotePayload.new_with_defaults (owner : Pubkey) (margin_account_id : Identifier)
    (market_id : Nat) (size_delta : Int) (slippage_setting : SlippageSetting) :
    ModifyPositionQuotePayload :=
  let fields := slippage_setting.as_request_fields
  { owner := owner
    margin_account_id := margin_account_id
    market_id := market_id
    size_delta := size_delta
    acceptable_price := fields.1
    slippage_tolerance_bps := fields.2
    exchange_id := none }

/-! ## Payload serialization (serde `Serialize` derive with the field
attributes of `request.rs`) -/

/-- `field_as_string` serialization of an unsigned integer. -/
def serializeNatField (n : Nat) : Json := .str (natToChars n)

/-- `field_as_string` serialization of a signed integer. -/
def serializeIntField (v : Int) : Json := .str (intToChars v)

/-- `field_as_string` serialization of a `Pubkey`. -/
def serializePubkeyField (a : Pubkey) : Json := .str a.toBase58

/-- Untagged serialization of an identifier union: the inner value's canonical
string with no wrapper. -/
def serializeIdentifierField (i : Identifier) : Json := .str i.toChars

/-- Default serde serialization of `Option<u16>`/`Option<u32>`: `null` for
`None`, a JSON number otherwise. -/
def serializeOptNumField : Option Nat → Json
  | none => .null
  | some n => .num (n : Int)

/-- `optional_field_as_string::serialize`: `null` for `None`, the canonical
string otherwise. -/
def serializeOptNatStringField : Option Nat → Json
  | none => .null
  | some v => .str (natToChars v)

/-- Serialization of `Option<ExchangeIdentifier>` (untagged inside `Option`). -/
def serializeOptIdentifierField : Option Identifier → Json
  | none => .null
  | some i => serializeIdentifierField i

/-- serde serialization of `ClosePositionPayload` (fields in declaration
order). -/
def ClosePositionPayload.serialize (p : ClosePositionPayload) : Json :=
  .obj [
    ("owner".toList, serializePubkeyField p.owner),
    ("margin_account_id".toList, serializeIdentifierField p.margin_account_id),
    ("market_id".toList, .num (p.market_id : Int)),
    ("acceptable_price".toList, serializeOptNatStringField p.acceptable_price),
    ("slippage_tolerance_bps".toList, serializeOptNumField p.slippage_tolerance_bps),
    ("exchange_id".toList, serializeOptIdentifierField p.exchange_id),
    ("priority_fee_percentile".toList, serializeOptNumField p.priority_fee_percentile)]

/-- serde serialization of `ModifyPositionPayload` (fields in declaration
order; `size_delta` is string-encoded). -/
def ModifyPositionPayload.serialize (p : ModifyPositionPayload) : Json :=
  .obj [
    ("owner".toList, serializePubkeyField p.owner),
    ("margin_account_id".toList, serializeIdentifierField p.margin_account_id),
    ("market_id".toList, .num (p.market_id : Int)),
    ("size_delta".toList, serializeIntField p.size_delta),
    ("acceptable_price".toList, serializeOptNatStringField p.acceptable_price),
    ("slippage_tolerance_bps".toList, serializeOptNumField p.slippage_tolerance_bps),
    ("exchange_id".toList, serializeOptIdentifierField p.exchange_id),
    ("priority_fee_percentile".toList, serializeOptNumField p.priority_fee_percentile)]

/-- serde serialization of `ModifyPositionQuotePayload`. -/
def ModifyPositionQuotePayload.serialize (p : ModifyPositionQuotePayload) : Json :=
  .obj [
    ("owner".toList, serializePubkeyField p.owner),
    ("margin_account_id".toList, serializeIdentifierField p.margin_account_id),
    ("market_id".toList, .num (p.market_id : Int)),
    ("size_delta".toList, serializeIntField p.size_delta),
    ("acceptable_price".toList, serializeOptNatStringField p.acceptable_price),
    ("slippage_tolerance_bps".toList, serializeOptNumField p.slippage_tolerance_bps),
    ("exchange_id".toList, serializeOptIdentifierField p.exchange_id)]

/-! ## Response wire model (`response.rs`) -/

/-- `AccountMetaInternal`: account metadata as decoded from the wire. -/
structure AccountMetaInternal where
  pubkey : Pubkey
  is_signer : Bool
  is_writable : Bool

/-- solana-sdk `AccountMeta`: the public account metadata. -/
structure AccountMeta where
  pubkey : Pubkey
  is_signer : Bool
  is_writable : Bool

/-- `From<AccountMetaInternal> for AccountMeta`. -/
def AccountMeta.fromInternal (account_meta : AccountMetaInternal) : AccountMeta :=
  { pubkey := account_meta.pubkey
    is_signer := account_meta.is_signer
    is_writable := account_meta.is_writable }

/-- `InstructionInternal`: one instruction as decoded from the wire. -/
structure InstructionInternal where
  program_id : Pubkey
  accounts : List AccountMetaInternal
  data : List Nat

/-- solana-sdk `Instruction`: the public instruction shape. -/
structure Instruction where
  program_id : Pubkey
  accounts : List AccountMeta
  data : List Nat

/-- `From<InstructionInternal> for Instruction`. -/
def Instruction.fromInternal (ix : InstructionInternal) : Instruction :=
  { program_id := ix.program_id
    accounts := ix.accounts.map AccountMeta.fromInternal
    data := ix.data }

/-- `InstructionsInternal`: the two wire instruction lists. -/
structure InstructionsInternal where
  v3_instructions : List InstructionInternal
  compute_budget_instructions : List InstructionInternal

/-- `Instructions`: the two public instruction lists. -/
structure Instructions where
  v3_instructions : List Instruction
  compute_budget_instructions : List Instruction

/-- `From<InstructionsInternal> for Instructions`. -/
def Instructions.fromInternal (ixs : InstructionsInternal) : Instructions :=
  { v3_instructions := ixs.v3_instructions.map Instruction.fromInternal
    compute_budget_instructions := ixs.compute_budget_instructions.map Instruction.fromInternal }

/-- `InstructionInfoInternal`: the wire-internal instruction response. -/
structure InstructionInfoInternal where
  instructions : InstructionsInternal
  total_required_lamports : Nat
  required_compute_lamports : Nat
  required_rent_lamports : Nat
  cu_limit : Nat

/-- `InstructionInfo`: the public instruction response. -/
structure InstructionInfo where
  instructions : Instructions
  total_required_lamports : Nat
  required_compute_lamports : Nat
  required_rent_lamports : Nat
  cu_limit : Nat

/-- `From<InstructionInfoInternal> for InstructionInfo`. -/
def InstructionInfo.fromInternal (ixs : InstructionInfoInternal) : InstructionInfo :=
  { instructions := Instructions.fromInternal ixs.instructions
    total_required_lamports := ixs.total_required_lamports
    required_compute_lamports := ixs.required_compute_lamports
    required_rent_lamports := ixs.required_rent_lamports
    cu_limit := ixs.cu_limit }

/-! ## Market-identifier-set response (`response.rs`: untagged three-variant
union, variants in declaration order `Ids`, `Addresses`, `Map`) -/

/-- `MarketIdentifiersResponse`. -/
inductive MarketIdentifiersResponse where
  | Ids (ids : List Nat)
  | Addresses (addresses : List Pubkey)
  | Map (map : List (Nat × Pubkey))

/-- Decode of the `Ids` variant: a JSON array of `u32` numbers. -/
def decodeIdsVariant : Json → Option (List Nat)
  | .arr l =>
    mapOptionAll (fun j =>
      match j with
      | .num n => if 0 ≤ n ∧ n < (U32_BOUND : Int) then some n.toNat else none
      | _ => none) l
  | _ => none

/-- Decode of the `Addresses` variant (`pubkey_vec::deserialize`): a JSON array
of strings, each of which must parse as an address. -/
def decodeAddressesVariant : Json → Option (List Pubkey)
  | .arr l => (mapOptionAll Json.asStr l).bind (mapOptionAll Pubkey.fromStr)
  | _ => none

/-- Decode of the `Map` variant (`pubkey_values_map::deserialize`): a JSON
object whose keys parse as `u32` market ids and whose values parse as
addresses. -/
def decodeMapVariant : Json → Option (List (Nat × Pubkey))
  | .obj kvs =>
    mapOptionAll (fun kv =>
      (rustParseUnsigned U32_BOUND kv.1).bind (fun i =>
        (kv.2.asStr.bind Pubkey.fromStr).map (fun a => (i, a)))) kvs
  | _ => none

/-- Untagged decode of `MarketIdentifiersResponse`: serde tries the variants in
declaration order and fails when none matches. -/
def MarketIdentifiersResponse.deserialize (j : Json) :
    Except (List Char) MarketIdentifiersResponse :=
  match decodeIdsVariant j with
  | some ids => .ok (.Ids ids)
  | none =>
    match decodeAddressesVariant j with
    | some addresses => .ok (.Addresses addresses)
    | none =>
      match decodeMapVariant j with
      | some m => .ok (.Map m)
      | none =>
        .error ("data did not match any variant of untagged enum MarketIdentifiersResponse".toList)

/-- `MarketIdentifiersResponseKind` (request-time discriminator). -/
inductive MarketIdentifiersResponseKind where
  | Map
  | Addresses
  | Ids
deriving DecidableEq

/-! ## Client layer (`lib.rs`) -/

/-- `ParclV3ApiClientError` (plus a constructor for serde decode failures,
which the source propagates through `anyhow`). -/
inductive ParclV3ApiClientError where
  | MarketIdsResponse (kind : MarketIdentifiersResponseKind)
  | Request (status : Nat) (body : List Char)
  | DecodeError (msg : List Char)
deriving DecidableEq

/-- The transport boundary: an HTTP response is a status code, the raw body
text, and the result of JSON-parsing the body (`none` when malformed). -/
structure HttpResponse where
  status : Nat
  body : List Char
  json : Option Json

/-- reqwest `StatusCode::is_success`: a 2xx status. -/
def statusIsSuccess (status : Nat) : Bool := 200 ≤ status && status < 300

/-- `validate_response`: pass a success response through unchanged, otherwise
fail with the status and the verbatim body text. -/
def validate_response (r : HttpResponse) : Except ParclV3ApiClientError HttpResponse :=
  if statusIsSuccess r.status then .ok r else .error (.Request r.status r.body)

/-- `Response::json::<T>()`: JSON-parse the body and decode it into the target
shape; any failure is a decode error. -/
def responseJsonAs {α : Type} (decode : Json → Except (List Char) α) (r : HttpResponse) :
    Except ParclV3ApiClientError α :=
  match r.json with
  | none => .error (.DecodeError ("expected value".toList))
  | some j =>
    match decode j with
    | .ok v => .ok v
    | .error e => .error (.DecodeError e)

/-- `validate_and_deserialize_response`. -/
def validate_and_deserialize_response {α : Type} (decode : Json → Except (List Char) α)
    (r : HttpResponse) : Except ParclV3ApiClientError α :=
  match validate_response r with
  | .ok r2 => responseJsonAs decode r2
  | .error e => .error e

/-- The client's immutable configuration (`ParclV3ApiClient` minus the
transport handle). -/
structure ParclV3ApiClient where
  exchange_id : Identifier
  priority_fee_percentile : Option Nat

/-- The `match` in `get_market_ids`: unwrap the `Ids` variant or fail with the
`MarketIdsResponse` error naming the requested kind. -/
def marketIdsFromResponse : MarketIdentifiersResponse →
    Except ParclV3ApiClientError (List Nat)
  | .Ids ids => .ok ids
  | _ => .error (.MarketIdsResponse .Ids)

/-- The `match` in `get_market_ids_map`: unwrap the `Map` variant or fail. -/
def marketIdsMapFromResponse : MarketIdentifiersResponse →
    Except ParclV3ApiClientError (List (Nat × Pubkey))
  | .Map m => .ok m
  | _ => .error (.MarketIdsResponse .Map)

/-- The `match` in `get_market_addresses`: unwrap the `Addresses` variant or
fail. -/
def marketAddressesFromResponse : MarketIdentifiersResponse →
    Except ParclV3ApiClientError (List Pubkey)
  | .Addresses addresses => .ok addresses
  | _ => .error (.MarketIdsResponse .Addresses)

/-- `get_market_ids_internal` applied to the transport's response: decode the
body as the untagged union. -/
def ParclV3ApiClient.get_market_ids_internal (_c : ParclV3ApiClient)
    (_response_kind : MarketIdentifiersResponseKind) (r : HttpResponse) :
    Except ParclV3ApiClientError MarketIdentifiersResponse :=
  validate_and_deserialize_response MarketIdentifiersResponse.deserialize r

/-- `get_market_ids` applied to the transport's response. -/
def ParclV3ApiClient.get_market_ids (c : ParclV3ApiClient) (r : HttpResponse) :
    Except ParclV3ApiClientError (List Nat) :=
  (c.get_market_ids_internal .Ids r).bind marketIdsFromResponse

/-- `get_market_ids_map` applied to the transport's response. -/
def ParclV3ApiClient.get_market_ids_map (c : ParclV3ApiClient) (r : HttpResponse) :
    Except ParclV3ApiClientError (List (Nat × Pubkey)) :=
  (c.get_market_ids_internal .Map r).bind marketIdsMapFromResponse

/-- `get_market_addresses` applied to the transport's response. -/
def ParclV3ApiClient.get_market_addresses (c : ParclV3ApiClient) (r : HttpResponse) :
    Except ParclV3ApiClientError (List Pubkey) :=
  (c.get_market_ids_internal .Addresses r).bind marketAddressesFromResponse

/-- serde decode of `Vec<String>`. -/
def decodeStringArray : Json → Except (List Char) (List (List Char))
  | .arr l =>
    match mapOptionAll Json.asStr l with
    | some ss => .ok ss
    | none => .error ("invalid type: expected a string".toList)
  | _ => .error ("invalid type: expected an array".toList)

/-- `get_unhealthy_margin_accounts` applied to the transport's response: decode
`Vec<String>`, then `flat_map(|s| Pubkey::from_str(&s).ok())` — entries that
fail address parsing are dropped. -/
def ParclV3ApiClient.get_unhealthy_margin_accounts (_c : ParclV3ApiClient) (r : HttpResponse) :
    Except ParclV3ApiClientError (List Pubkey) :=
  (validate_and_deserialize_response decodeStringArray r).map
    (fun l => l.filterMap (fun s => Pubkey.fromStr s))

/-- The `ClosePositionPayload` built by `get_close_position_transaction` and
`get_close_position_instructions` (both construct the identical payload). -/
def ParclV3ApiClient.close_position_payload (c : ParclV3ApiClient) (owner : Pubkey)
    (margin_account_id : Identifier) (market_id : Nat)
    (slippage_setting : SlippageSetting) : ClosePositionPayload :=
  let fields := slippage_setting.as_request_fields
  { owner := owner
    margin_account_id := margin_account_id
    market_id := market_id
    acceptable_price := fields.1
    slippage_tolerance_bps := fields.2
    exchange_id := some c.exchange_id
    priority_fee_percentile := c.priority_fee_percentile }

/-- The `ModifyPositionPayload` built by `get_modify_position_transaction` and
`get_modify_position_instructions`. -/
def ParclV3ApiClient.modify_position_payload (c : ParclV3ApiClient) (owner : Pubkey)
    (margin_account_id : Identifier) (market_id : Nat) (size_delta : Int)
    (slippage_setting : SlippageSetting) : ModifyPositionPayload :=
  let fields := slippage_setting.as_request_fields
  { owner := owner
    margin_account_id := margin_account_id
    market_id := market_id
    size_delta := size_delta
    acceptable_price := fields.1
    slippage_tolerance_bps := fields.2
    exchange_id := some c.exchange_id
    priority_fee_percentile := c.priority_fee_percentile }

/-- The `ModifyPositionQuotePayload` built by `get_modify_position_quote`. -/
def ParclV3ApiClient.modify_position_quote_payload (c : ParclV3ApiClient) (owner : Pubkey)
    (margin_account_id : Identifier) (market_id : Nat) (size_delta : Int)
    (slippage_setting : SlippageSetting) : ModifyPositionQuotePayload :=
  let fields := slippage_setting.as_request_fields
  { owner := owner
    margin_account_id := margin_account_id
    market_id := market_id
    size_delta := size_delta
    acceptable_price := fields.1
    slippage_tolerance_bps := fields.2
    exchange_id := some c.exchange_id }

/-! ## Concrete fixtures used to exercise the definitions -/

/-- Exclusive upper bound of Rust `u128` (wide accounting fields). -/
def U128_BOUND : Nat := 2 ^ 128

/-- A concrete non-trivial address. -/
def samplePubkey : Pubkey :=
  ⟨(List.range 32).map (fun i => (i * 37 + 5) % 256), by decide, by decide⟩

/-- The all-zero address (text form: 32 `'1'` characters). -/
def zeroPubkey : Pubkey := ⟨List.replicate 32 0, by decide, by decide⟩

/-- A concrete client configuration. -/
def sampleClient : ParclV3ApiClient := ⟨.Id 0, none⟩

/-- A success response whose body is a JSON array holding one string that is
not parseable as an address. -/
def badAddrResponse : HttpResponse :=
  ⟨200, ("[\x22!!!\x22]").toList, some (.arr [.str ("!!!".toList)])⟩

/-- A success response whose body is the empty JSON array. -/
def emptyArrayResponse : HttpResponse := ⟨200, "[]".toList, some (.arr [])⟩

/-- A failing response with a diagnostic body. -/
def failedResponse : HttpResponse := ⟨400, "insufficient funds".toList, none⟩

/-! # Verification

## Decimal codec lemmas -/

theorem digitsLEAux_eq_digits (base : Nat) (hb : 1 < base) :
    ∀ fuel n, n ≤ fuel → digitsLEAux base fuel n = Nat.digits base n := by
  intro fuel
  induction fuel with
  | zero =>
    intro n hn
    interval_cases n
    simp [digitsLEAux]
  | succ fuel ih =>
    intro n hn
    by_cases h0 : n = 0
    · subst h0; simp [digitsLEAux]
    · rw [digitsLEAux, if_neg h0,
        ih (n / base) (Nat.lt_succ_iff.mp
          (lt_of_lt_of_le (Nat.div_lt_self (Nat.pos_of_ne_zero h0) hb) hn)),
        Nat.digits_def' hb (Nat.pos_of_ne_zero h0)]

theorem natDigitsLE_eq_digits {base : Nat} (hb : 1 < base) (n : Nat) :
    natDigitsLE base n = Nat.digits base n :=
  digitsLEAux_eq_digits base hb n n le_rfl

theorem natDigitsBE_eq {base : Nat} (hb : 1 < base) (n : Nat) :
    natDigitsBE base n = (Nat.digits base n).reverse := by
  rw [natDigitsBE, natDigitsLE_eq_digits hb]

theorem foldl_mul_add_reverse (base a : Nat) (L : List Nat) :
    L.reverse.foldl (fun x d => x * base + d) a = a * base ^ L.length + Nat.ofDigits base L := by
  induction L generalizing a with
  | nil => simp [Nat.ofDigits]
  | cons d ds ih =>
    simp only [List.reverse_cons, List.foldl_append, List.foldl_cons, List.foldl_nil, ih,
      Nat.ofDigits_cons, List.length_cons]
    ring

theorem beValue_reverse_eq_ofDigits (base : Nat) (L : List Nat) :
    beValue base L.reverse = Nat.ofDigits base L := by
  simpa [beValue] using foldl_mul_add_reverse base 0 L

theorem beValue_natDigitsBE {base : Nat} (hb : 1 < base) (n : Nat) :
    beValue base (natDigitsBE base n) = n := by
  rw [natDigitsBE_eq hb, beValue_reverse_eq_ofDigits, Nat.ofDigits_digits]

theorem decDigit_roundtrip : ∀ d, d < 10 → decDigitVal (decDigitChar d) = d := by decide

theorem decDigitChar_isDigit : ∀ d, d < 10 → (decDigitChar d).isDigit = true := by decide

theorem natToChars_ne_nil (n : Nat) : natToChars n ≠ [] := by
  unfold natToChars
  by_cases h0 : n = 0
  · simp [h0]
  · rw [if_neg h0]
    have : natDigitsBE 10 n ≠ [] := by
      rw [natDigitsBE_eq (by norm_num) n]
      simpa using Nat.digits_ne_nil_iff_ne_zero.mpr h0
    simpa using this

theorem natToChars_all_digits (n : Nat) : (natToChars n).all Char.isDigit = true := by
  unfold natToChars
  by_cases h0 : n = 0
  · simp [h0]
  · rw [if_neg h0, List.all_eq_true]
    intro c hc
    rw [List.mem_map] at hc
    obtain ⟨d, hd, rfl⟩ := hc
    refine decDigitChar_isDigit d ?_
    rw [natDigitsBE_eq (by norm_num) n, List.mem_reverse] at hd
    exact Nat.digits_lt_base (by norm_num) hd

theorem decAccum_map_aux : ∀ (L : List Nat) (a : Nat), (∀ d ∈ L, d < 10) →
    (L.map decDigitChar).foldl (fun x c => x * 10 + decDigitVal c) a =
      L.foldl (fun x d => x * 10 + d) a := by
  intro L
  induction L with
  | nil => intro a _; rfl
  | cons d ds ih =>
    intro a hL
    simp only [List.map_cons, List.foldl_cons]
    rw [decDigit_roundtrip d (hL d (List.mem_cons_self d ds))]
    exact ih _ (fun x hx => hL x (List.mem_cons_of_mem d hx))

theorem parseDigitsVal_natToChars (n : Nat) : parseDigitsVal (natToChars n) = some n := by
  by_cases h0 : n = 0
  · subst h0; decide
  · rw [parseDigitsVal, if_neg (by simpa using natToChars_ne_nil n),
      if_pos (natToChars_all_digits n)]
    congr 1
    unfold natToChars
    rw [if_neg h0]
    unfold decAccum
    rw [decAccum_map_aux _ 0 (fun d hd => by
      rw [natDigitsBE_eq (by norm_num) n, List.mem_reverse] at hd
      exact Nat.digits_lt_base (by norm_num) hd)]
    exact beValue_natDigitsBE (by norm_num) n

theorem stripPlus_of_all_digits {cs : List Char} (h : cs.all Char.isDigit = true) :
    stripPlus cs = cs := by
  cases cs with
  | nil => rfl
  | cons c t =>
    rw [List.all_cons, Bool.and_eq_true] at h
    rw [stripPlus, if_neg]
    intro hc
    subst hc
    simp at h

theorem rustParseUnsigned_natToChars {bound : Nat} (n : Nat) (h : n < bound) :
    rustParseUnsigned bound (natToChars n) = some n := by
  rw [rustParseUnsigned, stripPlus_of_all_digits (natToChars_all_digits n),
    parseDigitsVal_natToChars]
  simp [h]

theorem digit_ne_minus {c : Char} (h : c.isDigit = true) : c ≠ '-' := by
  intro hc
  subst hc
  exact absurd h (by decide)

theorem digit_ne_plus {c : Char} (h : c.isDigit = true) : c ≠ '+' := by
  intro hc
  subst hc
  exact absurd h (by decide)

theorem rustParseSigned_intToChars {bound : Nat} (v : Int)
    (h1 : -(bound : Int) ≤ v) (h2 : v < bound) :
    rustParseSigned bound (intToChars v) = some v := by
  by_cases hv : v < 0
  · rw [intToChars, if_pos hv]
    have habs : (v.natAbs : Int) = -v := Int.ofNat_natAbs_of_nonpos (le_of_lt hv)
    have hle : v.natAbs ≤ bound := by
      have : (v.natAbs : Int) ≤ (bound : Int) := by rw [habs]; omega
      exact_mod_cast this
    rw [rustParseSigned, if_pos rfl, parseDigitsVal_natToChars]
    have hgoal : (if v.natAbs ≤ bound then some (-(v.natAbs : Int)) else none) = some v := by
      rw [if_pos hle]
      congr 1
      omega
    exact hgoal
  · rw [intToChars, if_neg hv]
    obtain ⟨c, t, hct⟩ := List.exists_cons_of_ne_nil (natToChars_ne_nil v.natAbs)
    have had := natToChars_all_digits v.natAbs
    rw [hct, List.all_cons, Bool.and_eq_true] at had
    have habs : (v.natAbs : Int) = v := Int.natAbs_of_nonneg (by omega)
    have hlt : v.natAbs < bound := by
      have : (v.natAbs : Int) < (bound : Int) := by rw [habs]; exact h2
      exact_mod_cast this
    rw [hct, rustParseSigned, if_neg (digit_ne_minus had.1),
      if_neg (digit_ne_plus had.1), ← hct, parseDigitsVal_natToChars]
    have hgoal : (if v.natAbs < bound then some ((v.natAbs : Int)) else none) = some v := by
      rw [if_pos hlt, habs]
    exact hgoal

/-! ## Base58 codec lemmas -/

theorem b58CharVal_valChar : ∀ d, d < 58 → b58CharVal (b58ValChar d) = some d := by decide

theorem b58CharVal_one : b58CharVal '1' = some 0 := by decide

theorem b58ValChar_ne_one : ∀ d, d < 58 → 0 < d → b58ValChar d ≠ '1' := by decide

theorem b58ValChar_ne_plus : ∀ d, d < 58 → b58ValChar d ≠ '+' := by decide

theorem b58ValChar_digit_ge_one :
    ∀ d, d < 58 → (b58ValChar d).isDigit = true → 1 ≤ decDigitVal (b58ValChar d) := by decide

theorem mapOptionAll_nil {α β : Type} (f : α → Option β) : mapOptionAll f [] = some [] := rfl

theorem mapOptionAll_cons {α β : Type} (f : α → Option β) (a : α) (l : List α) :
    mapOptionAll f (a :: l) =
      match f a with
      | some b => (mapOptionAll f l).map (b :: ·)
      | none => none := rfl

theorem mapOptionAll_append {α β : Type} (f : α → Option β) {l1 l2 : List α}
    {b1 b2 : List β} (h1 : mapOptionAll f l1 = some b1) (h2 : mapOptionAll f l2 = some b2) :
    mapOptionAll f (l1 ++ l2) = some (b1 ++ b2) := by
  induction l1 generalizing b1 with
  | nil =>
    have hb : some ([] : List β) = some b1 := h1
    cases hb
    simpa using h2
  | cons a l ih =>
    rw [mapOptionAll_cons] at h1
    cases hfa : f a with
    | none => rw [hfa] at h1; exact absurd h1 (by simp)
    | some b =>
      rw [hfa] at h1
      rw [Option.map_eq_some'] at h1
      obtain ⟨bs, hbs, rfl⟩ := h1
      rw [List.cons_append, mapOptionAll_cons, hfa, ih hbs]
      rfl

theorem mapOptionAll_replicate {α β : Type} (f : α → Option β) (a : α) (b : β)
    (h : f a = some b) (k : Nat) :
    mapOptionAll f (List.replicate k a) = some (List.replicate k b) := by
  induction k with
  | zero => rfl
  | succ k ih => rw [List.replicate_succ, List.replicate_succ, mapOptionAll_cons, h, ih]; rfl

theorem mapOptionAll_map_eq {α β : Type} (f : β → Option α) (g : α → β) (L : List α)
    (h : ∀ x ∈ L, f (g x) = some x) : mapOptionAll f (L.map g) = some L := by
  induction L with
  | nil => rfl
  | cons x l ih =>
    rw [List.map_cons, mapOptionAll_cons, h x (List.mem_cons_self x l),
      ih (fun y hy => h y (List.mem_cons_of_mem x hy))]
    rfl

theorem takeWhile_replicate_append_cons {α : Type} (p : α → Bool) (x y : α) (t : List α)
    (k : Nat) (hx : p x = true) (hy : p y = false) :
    (List.replicate k x ++ y :: t).takeWhile p = List.replicate k x := by
  induction k with
  | zero => simp [List.takeWhile_cons, hy]
  | succ k ih =>
    rw [List.replicate_succ, List.cons_append, List.takeWhile_cons, if_pos hx, ih]

theorem foldl_mul_add_zero (base : Nat) (k : Nat) :
    (List.replicate k 0).foldl (fun a d => a * base + d) 0 = 0 := by
  induction k with
  | zero => rfl
  | succ k ih => rw [List.replicate_succ, List.foldl_cons]; simpa using ih

theorem beValue_replicate_zero_append (base : Nat) (k : Nat) (ds : List Nat) :
    beValue base (List.replicate k 0 ++ ds) = beValue base ds := by
  unfold beValue
  rw [List.foldl_append, foldl_mul_add_zero]

theorem ofDigits_replicate_zero (b k : Nat) : Nat.ofDigits b (List.replicate k 0) = 0 := by
  induction k with
  | zero => rfl
  | succ k ih => rw [List.replicate_succ, Nat.ofDigits_cons, ih]; simp

theorem takeWhile_zero_eq_replicate (l : List Nat) :
    l.takeWhile (· == 0) = List.replicate (leadingZeroBytes l) 0 := by
  rw [List.eq_replicate_iff]
  exact ⟨rfl, fun b hb => by simpa using List.mem_takeWhile_imp hb⟩

theorem bytes_decomposition (l : List Nat) :
    l = List.replicate (leadingZeroBytes l) 0 ++ l.dropWhile (· == 0) := by
  conv_lhs => rw [← List.takeWhile_append_dropWhile (p := (· == 0)) (l := l)]
  rw [takeWhile_zero_eq_replicate]

theorem dropWhile_head_ne_zero {l : List Nat} {y : Nat} {t : List Nat}
    (h : l.dropWhile (· == 0) = y :: t) : y ≠ 0 := by
  have := List.head_dropWhile_not (· == 0) l
  rw [h] at this
  simpa using this (by simp)

theorem beValue_eq_ofDigits_rest (bytes : List Nat) :
    beValue 256 bytes = Nat.ofDigits 256 (bytes.dropWhile (· == 0)).reverse := by
  conv_lhs => rw [bytes_decomposition bytes]
  rw [beValue_replicate_zero_append, ← List.reverse_reverse (bytes.dropWhile (· == 0)),
    beValue_reverse_eq_ofDigits, List.reverse_reverse]

theorem digits_256_beValue (bytes : List Nat) (hlt : ∀ b ∈ bytes, b < 256) :
    Nat.digits 256 (beValue 256 bytes) = (bytes.dropWhile (· == 0)).reverse := by
  rw [beValue_eq_ofDigits_rest]
  cases hrest : bytes.dropWhile (· == 0) with
  | nil => simp
  | cons y t =>
    refine Nat.digits_ofDigits 256 (by norm_num) _ ?_ ?_
    · intro d hd
      rw [List.mem_reverse] at hd
      exact hlt d ((List.dropWhile_sublist (· == 0)).subset (hrest ▸ hd))
    · intro hne
      rw [List.getLast_reverse]
      simpa using dropWhile_head_ne_zero hrest

theorem b58Decode_b58Encode (bytes : List Nat) (hlt : ∀ b ∈ bytes, b < 256) :
    b58Decode (b58Encode bytes) = some bytes := by
  set k := leadingZeroBytes bytes with hk
  set v := beValue 256 bytes with hv
  have hds58 : ∀ d ∈ (Nat.digits 58 v).reverse, d < 58 := fun d hd =>
    Nat.digits_lt_base (by norm_num) (List.mem_reverse.mp hd)
  have hmapM : mapOptionAll b58CharVal (b58Encode bytes) =
      some (List.replicate k 0 ++ (Nat.digits 58 v).reverse) := by
    rw [b58Encode, natDigitsBE_eq (by norm_num : (1:Nat) < 58), ← hk, ← hv]
    exact mapOptionAll_append b58CharVal
      (mapOptionAll_replicate b58CharVal '1' 0 b58CharVal_one k)
      (mapOptionAll_map_eq b58CharVal b58ValChar _
        (fun d hd => b58CharVal_valChar d (hds58 d hd)))
  have hlead : leadingOneChars (b58Encode bytes) = k := by
    rw [leadingOneChars, b58Encode, natDigitsBE_eq (by norm_num : (1:Nat) < 58), ← hk, ← hv]
    cases hds : (Nat.digits 58 v).reverse with
    | nil =>
      simp [List.takeWhile_replicate]
    | cons d t =>
      have hvne : v ≠ 0 := by
        intro h0
        rw [h0] at hds
        simp at hds
      have hdig : Nat.digits 58 v = t.reverse ++ [d] := by
        rw [← List.reverse_reverse (Nat.digits 58 v), hds]
        simp
      have hdne : d ≠ 0 := by
        have h1 : (Nat.digits 58 v).getLast? = some d := by
          rw [hdig]
          simp
        have h2 := List.getLast?_eq_getLast (Nat.digits 58 v)
          (Nat.digits_ne_nil_iff_ne_zero.mpr hvne)
        rw [h1] at h2
        rw [Option.some.inj h2]
        exact Nat.getLast_digit_ne_zero 58 hvne
      have hdlt : d < 58 := hds58 d (by rw [hds]; exact List.mem_cons_self d t)
      rw [List.map_cons,
        takeWhile_replicate_append_cons _ '1' (b58ValChar d) _ k (by decide)
          (by simpa using b58ValChar_ne_one d hdlt (Nat.pos_of_ne_zero hdne))]
      simp
  rw [b58Decode, hmapM, Option.map_some', hlead, beValue_replicate_zero_append,
    ← List.reverse_reverse (Nat.digits 58 v) ]
  rw [beValue_reverse_eq_ofDigits]
  rw [List.reverse_reverse, Nat.ofDigits_digits,
    natDigitsBE_eq (by norm_num : (1:Nat) < 256), digits_256_beValue bytes hlt]
  rw [List.reverse_reverse, ← takeWhile_zero_eq_replicate, List.takeWhile_append_dropWhile]

theorem leadingZeroBytes_add_rest (bytes : List Nat) :
    leadingZeroBytes bytes + (bytes.dropWhile (· == 0)).length = bytes.length := by
  conv_rhs => rw [bytes_decomposition bytes]
  simp

theorem pow_256_le_pow_58 {m : Nat} (hm : m ≤ 32) : 256 ^ m ≤ 58 ^ (m + 12) := by
  have h1 : 256 ^ m * 58 ^ (32 - m) ≤ 256 ^ m * 256 ^ (32 - m) :=
    Nat.mul_le_mul_left _ (Nat.pow_le_pow_left (by norm_num) _)
  have h2 : 256 ^ m * 256 ^ (32 - m) = 256 ^ 32 := by
    rw [← pow_add]
    congr 1
    omega
  have h3 : (256 : Nat) ^ 32 ≤ 58 ^ 44 := by norm_num
  have h4 : (58 : Nat) ^ 44 = 58 ^ (m + 12) * 58 ^ (32 - m) := by
    rw [← pow_add]
    congr 1
    omega
  have hchain : 256 ^ m * 58 ^ (32 - m) ≤ 58 ^ (m + 12) * 58 ^ (32 - m) :=
    calc 256 ^ m * 58 ^ (32 - m) ≤ 256 ^ m * 256 ^ (32 - m) := h1
      _ = 256 ^ 32 := h2
      _ ≤ 58 ^ 44 := h3
      _ = 58 ^ (m + 12) * 58 ^ (32 - m) := h4
  exact Nat.le_of_mul_le_mul_right hchain (Nat.pow_pos (by norm_num))

theorem b58Encode_length (bytes : List Nat) :
    (b58Encode bytes).length =
      leadingZeroBytes bytes + (Nat.digits 58 (beValue 256 bytes)).length := by
  rw [b58Encode, List.length_append, List.length_replicate, List.length_map,
    natDigitsBE_eq (by norm_num : (1:Nat) < 58), List.length_reverse]

theorem b58Encode_length_le (bytes : List Nat) (hlen : bytes.length = 32)
    (hlt : ∀ b ∈ bytes, b < 256) : (b58Encode bytes).length ≤ 44 := by
  set k := leadingZeroBytes bytes with hk
  set v := beValue 256 bytes with hv
  have hkm : k + (bytes.dropWhile (· == 0)).length = 32 := by
    rw [hk, leadingZeroBytes_add_rest, hlen]
  set m := (bytes.dropWhile (· == 0)).length with hm
  rw [b58Encode_length, ← hk, ← hv]
  by_cases hv0 : v = 0
  · rw [hv0]
    simp
    omega
  · have hvlt : v < 256 ^ m := by
      rw [hv, beValue_eq_ofDigits_rest]
      have := Nat.ofDigits_lt_base_pow_length (b := 256) (l := (bytes.dropWhile (· == 0)).reverse)
        (by norm_num) (fun x hx => hlt x
          ((List.dropWhile_sublist (· == 0)).subset (List.mem_reverse.mp hx)))
      simpa [hm] using this
    have hdlen : (Nat.digits 58 v).length ≤ m + 12 := by
      by_contra hcon
      push_neg at hcon
      have h58 : 58 ^ (Nat.digits 58 v).length ≤ 58 * v :=
        Nat.base_pow_length_digits_le 58 v (by norm_num) hv0
      have h2 : (58 : Nat) ^ (m + 13) ≤ 58 ^ (Nat.digits 58 v).length :=
        Nat.pow_le_pow_right (by norm_num) (by omega)
      have h3 : (58 : Nat) ^ (m + 12) ≤ v := by
        have : 58 * 58 ^ (m + 12) ≤ 58 * v := by
          calc 58 * 58 ^ (m + 12) = 58 ^ (m + 13) := by ring
            _ ≤ 58 ^ (Nat.digits 58 v).length := h2
            _ ≤ 58 * v := h58
        omega
      have h4 : (256 : Nat) ^ m ≤ 58 ^ (m + 12) := pow_256_le_pow_58 (by omega)
      omega
    omega

theorem b58Encode_length_ge (bytes : List Nat) (hlen : bytes.length = 32)
    (hlt : ∀ b ∈ bytes, b < 256) : 32 ≤ (b58Encode bytes).length := by
  set k := leadingZeroBytes bytes with hk
  set v := beValue 256 bytes with hv
  have hkm : k + (bytes.dropWhile (· == 0)).length = 32 := by
    rw [hk, leadingZeroBytes_add_rest, hlen]
  set m := (bytes.dropWhile (· == 0)).length with hm
  rw [b58Encode_length, ← hk, ← hv]
  cases hrest : bytes.dropWhile (· == 0) with
  | nil =>
    have : m = 0 := by rw [hm, hrest]; rfl
    omega
  | cons y t =>
    have hdig256 : Nat.digits 256 v = (y :: t).reverse := by
      rw [hv, digits_256_beValue bytes hlt, hrest]
    have hv0 : v ≠ 0 := by
      rw [← Nat.digits_ne_nil_iff_ne_zero (b := 256), hdig256]
      simp
    have hmlen : (Nat.digits 256 v).length = m := by
      rw [hdig256, List.length_reverse, hm, hrest]
    have hlow : 256 ^ (m - 1) ≤ v := by
      have h1 : 256 ^ m ≤ 256 * v := by
        rw [← hmlen]
        exact Nat.base_pow_length_digits_le 256 v (by norm_num) hv0
      have hm1 : 1 ≤ m := by
        rw [hm, hrest]
        simp
      have : 256 * 256 ^ (m - 1) = 256 ^ m := by
        rw [← pow_succ']
        congr 1
        omega
      omega
    have hup : v < 58 ^ (Nat.digits 58 v).length := Nat.lt_base_pow_length_digits (by norm_num)
    have hdge : m ≤ (Nat.digits 58 v).length := by
      by_contra hcon
      push_neg at hcon
      have h1 : (58 : Nat) ^ (Nat.digits 58 v).length ≤ 58 ^ (m - 1) :=
        Nat.pow_le_pow_right (by norm_num) (by omega)
      have h2 : (58 : Nat) ^ (m - 1) ≤ 256 ^ (m - 1) :=
        Nat.pow_le_pow_left (by norm_num) _
      omega
    omega

theorem b58Encode_chars (bytes : List Nat) {c : Char} (hc : c ∈ b58Encode bytes) :
    c = '1' ∨ ∃ d, d < 58 ∧ c = b58ValChar d := by
  rw [b58Encode, List.mem_append] at hc
  cases hc with
  | inl h => exact Or.inl (List.eq_of_mem_replicate h)
  | inr h =>
    rw [List.mem_map] at h
    obtain ⟨d, hd, rfl⟩ := h
    refine Or.inr ⟨d, ?_, rfl⟩
    rw [natDigitsBE_eq (by norm_num : (1:Nat) < 58), List.mem_reverse] at hd
    exact Nat.digits_lt_base (by norm_num) hd

theorem foldl_digits_lb : ∀ (t : List Char) (a : Nat),
    a * 10 ^ t.length ≤ t.foldl (fun x c => x * 10 + decDigitVal c) a := by
  intro t
  induction t with
  | nil => intro a; simp
  | cons c t ih =>
    intro a
    calc a * 10 ^ (c :: t).length = a * 10 * 10 ^ t.length := by
          rw [List.length_cons]
          ring
      _ ≤ (a * 10 + decDigitVal c) * 10 ^ t.length := by
          exact Nat.mul_le_mul_right _ (by omega)
      _ ≤ t.foldl (fun x c => x * 10 + decDigitVal c) (a * 10 + decDigitVal c) := ih _
      _ = (c :: t).foldl (fun x c => x * 10 + decDigitVal c) a := rfl

theorem rustParseUnsigned_b58Encode {bound : Nat} (hb : bound ≤ 10 ^ 31)
    (bytes : List Nat) (hlen : bytes.length = 32) (hlt : ∀ b ∈ bytes, b < 256) :
    rustParseUnsigned bound (b58Encode bytes) = none := by
  have hge := b58Encode_length_ge bytes hlen hlt
  obtain ⟨c, t, hct⟩ := List.exists_cons_of_ne_nil
    (show b58Encode bytes ≠ [] by
      intro h
      rw [h] at hge
      simp at hge)
  have hcmem : c ∈ b58Encode bytes := by rw [hct]; exact List.mem_cons_self c t
  have hcchar := b58Encode_chars bytes hcmem
  have hcplus : c ≠ '+' := by
    rcases hcchar with h1 | ⟨d, hd, rfl⟩
    · rw [h1]; decide
    · exact b58ValChar_ne_plus d hd
  have hstrip : stripPlus (b58Encode bytes) = b58Encode bytes := by
    rw [hct, stripPlus, if_neg hcplus]
  rw [rustParseUnsigned, hstrip]
  by_cases hall : (b58Encode bytes).all Char.isDigit
  · rw [parseDigitsVal, if_neg (by rw [hct]; simp), if_pos hall]
    have hcd : c.isDigit = true := by
      rw [hct, List.all_cons, Bool.and_eq_true] at hall
      exact hall.1
    have hdv1 : 1 ≤ decDigitVal c := by
      rcases hcchar with h1 | ⟨d, hd, rfl⟩
      · rw [h1]; decide
      · exact b58ValChar_digit_ge_one d hd hcd
    have htlen : 31 ≤ t.length := by
      have : (b58Encode bytes).length = t.length + 1 := by rw [hct]; simp
      omega
    have hlb : 10 ^ 31 ≤ decAccum (b58Encode bytes) := by
      rw [hct, decAccum, List.foldl_cons]
      have h1 : decDigitVal c * 10 ^ t.length ≤
          t.foldl (fun x c => x * 10 + decDigitVal c) (0 * 10 + decDigitVal c) := by
        simpa using foldl_digits_lb t (decDigitVal c)
      have h2 : (10 : Nat) ^ 31 ≤ 10 ^ t.length := Nat.pow_le_pow_right (by norm_num) htlen
      have h3 : 10 ^ t.length ≤ decDigitVal c * 10 ^ t.length :=
        Nat.le_mul_of_pos_left _ (by omega)
      omega
    have : ¬ decAccum (b58Encode bytes) < bound := by omega
    simp [this]
  · rw [parseDigitsVal, if_neg (by rw [hct]; simp), if_neg hall]

theorem Pubkey.fromStr_toBase58 (a : Pubkey) : Pubkey.fromStr a.toBase58 = some a := by
  rw [Pubkey.toBase58, Pubkey.fromStr,
    if_neg (by
      have := b58Encode_length_le a.bytes a.size_eq a.bytes_lt
      omega),
    b58Decode_b58Encode a.bytes a.bytes_lt]
  have hgoal : (if h : a.bytes.length = 32 ∧ ∀ b ∈ a.bytes, b < 256 then
      some (⟨a.bytes, h.1, h.2⟩ : Pubkey) else none) = some a := by
    rw [dif_pos ⟨a.size_eq, a.bytes_lt⟩]
  exact hgoal

/-! ## Claim theorems -/

/-- C1 counterexample: decoding the unparseable text `"!"` as a market
identifier fails, but the error is serde's fixed untagged-mismatch message,
which does not carry the raw text — the character `'!'` of the input does not
occur in it. -/
theorem identifier_untagged_error_counterexample :
    MarketIdentifier.deserialize ("!".toList) =
      .error ("data did not match any variant of untagged enum MarketIdentifier".toList) ∧
    '!' ∉ ("data did not match any variant of untagged enum MarketIdentifier".toList) := by
  constructor
  · rfl
  · decide

/-- C1 (amended): decoding raw wire text as an identifier (exchange,
margin-account or market identifier) tries the variants in a fixed order: if
the text parses as the numeric id type the result is the numeric (`Id`)
variant; otherwise, if it parses as an address, the result is the `Address`
variant; otherwise decoding fails — with serde's generic mismatch error
naming the untagged enum, not an error carrying the raw text. -/
theorem identifier_decode_order (bound : Nat) (enumName cs : List Char) :
    (∀ n, rustParseUnsigned bound cs = some n →
      deserializeIdentifier bound enumName cs = .ok (.Id n)) ∧
    (rustParseUnsigned bound cs = none →
      ∀ a, Pubkey.fromStr cs = some a →
        deserializeIdentifier bound enumName cs = .ok (.Address a)) ∧
    (rustParseUnsigned bound cs = none → Pubkey.fromStr cs = none →
      deserializeIdentifier bound enumName cs =
        .error ("data did not match any variant of untagged enum ".toList ++ enumName)) := by
  refine ⟨fun n hn => ?_, fun hn a ha => ?_, fun hn ha => ?_⟩
  · rw [deserializeIdentifier, hn]
  · rw [deserializeIdentifier, hn, ha]
  · rw [deserializeIdentifier, hn, ha]

/-- Witness for C1 at concrete inputs: `"42"` decodes as the numeric variant,
the all-ones text decodes as the zero address, `"!"` fails with the generic
untagged-mismatch error. -/
theorem identifier_decode_order_witness :
    deserializeIdentifier U32_BOUND ("MarketIdentifier".toList) ("42".toList) =
      .ok (.Id 42) ∧
    deserializeIdentifier U32_BOUND ("MarketIdentifier".toList)
      ("11111111111111111111111111111111".toList) = .ok (.Address zeroPubkey) ∧
    deserializeIdentifier U32_BOUND ("MarketIdentifier".toList) ("!".toList) =
      .error ("data did not match any variant of untagged enum ".toList ++
        "MarketIdentifier".toList) :=
  ⟨(identifier_decode_order U32_BOUND _ _).1 42 (by decide),
   (identifier_decode_order U32_BOUND _ _).2.1 (by decide) zeroPubkey (by decide),
   (identifier_decode_order U32_BOUND _ _).2.2 (by decide) (by decide)⟩

/-- C2: for every identifier, serializing then deserializing is the identity
on both variants (for every numeric-variant width used by the source, whose
bound is far below `10^31`), and text that parses neither as the numeric id
nor as an address fails to decode. -/
theorem identifier_roundtrip (bound : Nat) (enumName : List Char) (hble : bound ≤ 10 ^ 31) :
    (∀ n, n < bound →
      deserializeIdentifier bound enumName (Identifier.toChars (.Id n)) = .ok (.Id n)) ∧
    (∀ a : Pubkey,
      deserializeIdentifier bound enumName (Identifier.toChars (.Address a)) =
        .ok (.Address a)) ∧
    (∀ cs, rustParseUnsigned bound cs = none → Pubkey.fromStr cs = none →
      deserializeIdentifier bound enumName cs =
        .error ("data did not match any variant of untagged enum ".toList ++ enumName)) := by
  refine ⟨fun n hn => ?_, fun a => ?_, fun cs hn ha => ?_⟩
  · rw [Identifier.toChars, deserializeIdentifier, rustParseUnsigned_natToChars n hn]
  · rw [Identifier.toChars, deserializeIdentifier, Pubkey.toBase58,
      rustParseUnsigned_b58Encode hble a.bytes a.size_eq a.bytes_lt,
      ← Pubkey.toBase58, Pubkey.fromStr_toBase58]
  · rw [deserializeIdentifier, hn, ha]

/-- Witness for C2 at the `u32` width: the id `7` and a concrete non-zero
address round-trip, and the unparseable text `"@"` fails. -/
theorem identifier_roundtrip_witness :
    deserializeIdentifier U32_BOUND ("MarginAccountIdentifier".toList)
      (Identifier.toChars (.Id 7)) = .ok (.Id 7) ∧
    deserializeIdentifier U32_BOUND ("MarginAccountIdentifier".toList)
      (Identifier.toChars (.Address samplePubkey)) = .ok (.Address samplePubkey) ∧
    deserializeIdentifier U32_BOUND ("MarginAccountIdentifier".toList) ("@".toList) =
      .error ("data did not match any variant of untagged enum ".toList ++
        "MarginAccountIdentifier".toList) :=
  ⟨(identifier_roundtrip U32_BOUND _ (by norm_num [U32_BOUND])).1 7 (by norm_num [U32_BOUND]),
   (identifier_roundtrip U32_BOUND _ (by norm_num [U32_BOUND])).2.1 samplePubkey,
   (identifier_roundtrip U32_BOUND _ (by norm_num [U32_BOUND])).2.2 ("@".toList)
     (by decide) (by decide)⟩

/-- C3: each market-identifier-set convenience method returns the inner value
when the decoded response is the variant it requested and otherwise fails with
the distinct `MarketIdsResponse` error naming the requested kind; each method
is exactly this match applied to the decoded response. -/
theorem market_ids_methods_match :
    (∀ ids, marketIdsFromResponse (.Ids ids) = .ok ids) ∧
    (∀ addresses, marketIdsFromResponse (.Addresses addresses) =
      .error (.MarketIdsResponse .Ids)) ∧
    (∀ m, marketIdsFromResponse (.Map m) = .error (.MarketIdsResponse .Ids)) ∧
    (∀ m, marketIdsMapFromResponse (.Map m) = .ok m) ∧
    (∀ ids, marketIdsMapFromResponse (.Ids ids) = .error (.MarketIdsResponse .Map)) ∧
    (∀ addresses, marketIdsMapFromResponse (.Addresses addresses) =
      .error (.MarketIdsResponse .Map)) ∧
    (∀ addresses, marketAddressesFromResponse (.Addresses addresses) = .ok addresses) ∧
    (∀ ids, marketAddressesFromResponse (.Ids ids) =
      .error (.MarketIdsResponse .Addresses)) ∧
    (∀ m, marketAddressesFromResponse (.Map m) = .error (.MarketIdsResponse .Addresses)) ∧
    (∀ c r, ParclV3ApiClient.get_market_ids c r =
      (c.get_market_ids_internal .Ids r).bind marketIdsFromResponse) ∧
    (∀ c r, ParclV3ApiClient.get_market_ids_map c r =
      (c.get_market_ids_internal .Map r).bind marketIdsMapFromResponse) ∧
    (∀ c r, ParclV3ApiClient.get_market_addresses c r =
      (c.get_market_ids_internal .Addresses r).bind marketAddressesFromResponse) :=
  ⟨fun _ => rfl, fun _ => rfl, fun _ => rfl, fun _ => rfl, fun _ => rfl, fun _ => rfl,
   fun _ => rfl, fun _ => rfl, fun _ => rfl, fun _ _ => rfl, fun _ _ => rfl, fun _ _ => rfl⟩

/-- C7: the internal-to-public conversion of instruction responses is a total
function that preserves the four cost fields, keeps both instruction lists'
length and order (they are `map`s of the per-instruction conversion), and
preserves each instruction's program id, data and per-entry account
metadata. -/
theorem instruction_conversion_preserves (ii : InstructionInfoInternal) :
    ((InstructionInfo.fromInternal ii).total_required_lamports = ii.total_required_lamports ∧
     (InstructionInfo.fromInternal ii).required_compute_lamports = ii.required_compute_lamports ∧
     (InstructionInfo.fromInternal ii).required_rent_lamports = ii.required_rent_lamports ∧
     (InstructionInfo.fromInternal ii).cu_limit = ii.cu_limit) ∧
    ((InstructionInfo.fromInternal ii).instructions.v3_instructions =
      ii.instructions.v3_instructions.map Instruction.fromInternal ∧
     (InstructionInfo.fromInternal ii).instructions.compute_budget_instructions =
      ii.instructions.compute_budget_instructions.map Instruction.fromInternal ∧
     (InstructionInfo.fromInternal ii).instructions.v3_instructions.length =
      ii.instructions.v3_instructions.length ∧
     (InstructionInfo.fromInternal ii).instructions.compute_budget_instructions.length =
      ii.instructions.compute_budget_instructions.length) ∧
    (∀ ix : InstructionInternal,
      (Instruction.fromInternal ix).program_id = ix.program_id ∧
      (Instruction.fromInternal ix).data = ix.data ∧
      (Instruction.fromInternal ix).accounts = ix.accounts.map AccountMeta.fromInternal ∧
      (Instruction.fromInternal ix).accounts.length = ix.accounts.length) ∧
    (∀ am : AccountMetaInternal,
      (AccountMeta.fromInternal am).pubkey = am.pubkey ∧
      (AccountMeta.fromInternal am).is_signer = am.is_signer ∧
      (AccountMeta.fromInternal am).is_writable = am.is_writable) := by
  refine ⟨⟨rfl, rfl, rfl, rfl⟩, ⟨rfl, rfl, by simp [InstructionInfo.fromInternal,
    Instructions.fromInternal], by simp [InstructionInfo.fromInternal,
    Instructions.fromInternal]⟩, fun ix => ⟨rfl, rfl, rfl, by
    simp [Instruction.fromInternal]⟩, fun am => ⟨rfl, rfl, rfl⟩⟩

/-- C9: for every decoder and transport response, a non-success status yields
the `Request` error carrying that status and the verbatim body (the body is
never decoded: the result is the same for every decoder), and a success status
proceeds to decode the body. -/
theorem status_validation (α : Type) (decode : Json → Except (List Char) α)
    (r : HttpResponse) :
    (statusIsSuccess r.status = false →
      validate_and_deserialize_response decode r = .error (.Request r.status r.body)) ∧
    (statusIsSuccess r.status = true →
      validate_and_deserialize_response decode r = responseJsonAs decode r) := by
  constructor
  · intro h
    rw [validate_and_deserialize_response, validate_response, h]
    rfl
  · intro h
    rw [validate_and_deserialize_response, validate_response, h]
    rfl

/-- Witness for C9: a 400 response with body `"insufficient funds"` surfaces
as the `Request` error for any decoder, and a 200 response is decoded. -/
theorem status_validation_witness :
    validate_and_deserialize_response decodeStringArray failedResponse =
      .error (.Request 400 ("insufficient funds".toList)) ∧
    validate_and_deserialize_response decodeStringArray emptyArrayResponse =
      responseJsonAs decodeStringArray emptyArrayResponse :=
  ⟨(status_validation _ decodeStringArray failedResponse).1 (by decide),
   (status_validation _ decodeStringArray emptyArrayResponse).2 (by decide)⟩

/-- C4: `as_request_fields` populates exactly one wire field
(`AcceptablePrice p ↦ (some p, none)`, `SlippageToleranceBps b ↦ (none, some b)`),
and consequently every serialized position-modifying payload the client builds
(modify, close, quote) carries `null` in at least one of `acceptable_price`
and `slippage_tolerance_bps` — they are never both populated. -/
theorem slippage_exclusive :
    (∀ p, SlippageSetting.as_request_fields (.AcceptablePrice p) = (some p, none)) ∧
    (∀ b, SlippageSetting.as_request_fields (.SlippageToleranceBps b) = (none, some b)) ∧
    (∀ (c : ParclV3ApiClient) (owner : Pubkey) (mai : Identifier) (mid : Nat)
        (delta : Int) (s : SlippageSetting),
      (c.modify_position_payload owner mai mid delta s).serialize.getField
          ("acceptable_price".toList) = some .null ∨
      (c.modify_position_payload owner mai mid delta s).serialize.getField
          ("slippage_tolerance_bps".toList) = some .null) ∧
    (∀ (c : ParclV3ApiClient) (owner : Pubkey) (mai : Identifier) (mid : Nat)
        (s : SlippageSetting),
      (c.close_position_payload owner mai mid s).serialize.getField
          ("acceptable_price".toList) = some .null ∨
      (c.close_position_payload owner mai mid s).serialize.getField
          ("slippage_tolerance_bps".toList) = some .null) ∧
    (∀ (c : ParclV3ApiClient) (owner : Pubkey) (mai : Identifier) (mid : Nat)
        (delta : Int) (s : SlippageSetting),
      (c.modify_position_quote_payload owner mai mid delta s).serialize.getField
          ("acceptable_price".toList) = some .null ∨
      (c.modify_position_quote_payload owner mai mid delta s).serialize.getField
          ("slippage_tolerance_bps".toList) = some .null) := by
  refine ⟨fun p => rfl, fun b => rfl, fun c owner mai mid delta s => ?_,
    fun c owner mai mid s => ?_, fun c owner mai mid delta s => ?_⟩
  all_goals cases s with
  | AcceptablePrice p => exact Or.inr rfl
  | SlippageToleranceBps b => exact Or.inl rfl

/-- C5 counterexample: a success response whose body is the JSON array
`["!!!"]` holds an entry that is not parseable as an address, yet
`get_unhealthy_margin_accounts` succeeds with the empty list instead of
failing with a decode error — the unparseable entry is silently dropped. -/
theorem unhealthy_no_decode_error_counterexample :
    Pubkey.fromStr ("!!!".toList) = none ∧
    sampleClient.get_unhealthy_margin_accounts badAddrResponse = .ok [] :=
  ⟨rfl, rfl⟩

/-- C5 (amended): when the response status is a success and the body decodes
as a list of strings, `get_unhealthy_margin_accounts` never fails on
unparseable entries; it silently drops them, returning the parseable subset
in order (`filterMap` of address parsing). -/
theorem unhealthy_filters_unparseable (c : ParclV3ApiClient) (r : HttpResponse)
    (j : Json) (l : List (List Char)) (hs : statusIsSuccess r.status = true)
    (hj : r.json = some j) (hd : decodeStringArray j = .ok l) :
    c.get_unhealthy_margin_accounts r = .ok (l.filterMap (fun s => Pubkey.fromStr s)) := by
  rw [ParclV3ApiClient.get_unhealthy_margin_accounts, validate_and_deserialize_response,
    validate_response, hs]
  show (responseJsonAs decodeStringArray r).map _ = _
  simp only [responseJsonAs, hj, hd]
  rfl

/-- Witness for the amended C5 at the concrete `["!!!"]` response: the entry
fails to parse and is dropped, leaving the empty list. -/
theorem unhealthy_filters_unparseable_witness :
    sampleClient.get_unhealthy_margin_accounts badAddrResponse =
      .ok (([("!!!".toList)]).filterMap (fun s => Pubkey.fromStr s)) :=
  unhealthy_filters_unparseable sampleClient badAddrResponse
    (.arr [.str ("!!!".toList)]) [("!!!".toList)] (by decide) rfl rfl

/-- C6 counterexample: at concrete inputs the close-position request body does
not equal the modify-position request body with size delta zero — the modify
body carries an extra `size_delta` field (7 fields versus 8). -/
theorem close_position_payload_counterexample :
    (sampleClient.close_position_payload samplePubkey (.Id 1) 2
        (.AcceptablePrice 3)).serialize ≠
      (sampleClient.modify_position_payload samplePubkey (.Id 1) 2 0
        (.AcceptablePrice 3)).serialize :=
  fun h => absurd (congrArg Json.objLength h) (by decide)

/-- C6 (amended): the close-position request body equals the modify-position
request body with size delta zero except that the modify body additionally
contains the field `size_delta = "0"` between `market_id` and
`acceptable_price`; all shared fields agree in value and order. -/
theorem close_position_is_modify_without_size_delta (c : ParclV3ApiClient)
    (owner : Pubkey) (mai : Identifier) (mid : Nat) (s : SlippageSetting) :
    ∃ pre post,
      (c.close_position_payload owner mai mid s).serialize = .obj (pre ++ post) ∧
      (c.modify_position_payload owner mai mid 0 s).serialize =
        .obj (pre ++ ("size_delta".toList, .str (intToChars 0)) :: post) ∧
      pre.length = 3 :=
  ⟨[("owner".toList, serializePubkeyField owner),
    ("margin_account_id".toList, serializeIdentifierField mai),
    ("market_id".toList, .num (mid : Int))],
   [("acceptable_price".toList, serializeOptNatStringField s.as_request_fields.1),
    ("slippage_tolerance_bps".toList, serializeOptNumField s.as_request_fields.2),
    ("exchange_id".toList, serializeOptIdentifierField (some c.exchange_id)),
    ("priority_fee_percentile".toList, serializeOptNumField c.priority_fee_percentile)],
   rfl, rfl, rfl⟩

/-- C8: deserializing the string serialization of a wide-integer value through
the string-scalar codec yields the value again, for every unsigned width bound
and every signed width bound (hence for `u64`, `u128`, `i64` and `i128`
values, including all boundary values). -/
theorem field_as_string_roundtrip :
    (∀ (bound n : Nat), n < bound →
      rustParseUnsigned bound (natToChars n) = some n) ∧
    (∀ (bound : Nat) (v : Int), -(bound : Int) ≤ v → v < (bound : Int) →
      rustParseSigned bound (intToChars v) = some v) :=
  ⟨fun _ n h => rustParseUnsigned_natToChars n h,
   fun _ v h1 h2 => rustParseSigned_intToChars v h1 h2⟩

/-- Witness for C8 at the boundary values: `0`, the maximum signed and
unsigned 64-bit values, the maximum unsigned 128-bit value, and both signed
128-bit extremes. -/
theorem field_as_string_roundtrip_witness :
    rustParseUnsigned U64_BOUND (natToChars 0) = some 0 ∧
    rustParseUnsigned U64_BOUND (natToChars (2 ^ 63 - 1)) = some (2 ^ 63 - 1) ∧
    rustParseUnsigned U64_BOUND (natToChars (2 ^ 64 - 1)) = some (2 ^ 64 - 1) ∧
    rustParseUnsigned U128_BOUND (natToChars (2 ^ 128 - 1)) = some (2 ^ 128 - 1) ∧
    rustParseSigned I128_BOUND (intToChars (-(2 ^ 127))) = some (-(2 ^ 127)) ∧
    rustParseSigned I128_BOUND (intToChars (2 ^ 127 - 1)) = some (2 ^ 127 - 1) :=
  ⟨field_as_string_roundtrip.1 U64_BOUND 0 (by norm_num [U64_BOUND]),
   field_as_string_roundtrip.1 U64_BOUND _ (by norm_num [U64_BOUND]),
   field_as_string_roundtrip.1 U64_BOUND _ (by norm_num [U64_BOUND]),
   field_as_string_roundtrip.1 U128_BOUND _ (by norm_num [U128_BOUND]),
   field_as_string_roundtrip.2 I128_BOUND _ (by norm_num [I128_BOUND]) (by norm_num [I128_BOUND]),
   field_as_string_roundtrip.2 I128_BOUND _ (by norm_num [I128_BOUND]) (by norm_num [I128_BOUND])⟩

/-- C10: the empty JSON array body decodes as the `Ids` variant with the empty
list (the `Ids` variant is tried first and an empty array satisfies it), so on
such a response `get_market_addresses` fails with the shape-mismatch error for
`Addresses` and `get_market_ids_map` fails with the shape-mismatch error for
`Map`. -/
theorem empty_array_decodes_as_ids (r : HttpResponse) (c : ParclV3ApiClient)
    (hs : statusIsSuccess r.status = true) (hj : r.json = some (Json.arr [])) :
    MarketIdentifiersResponse.deserialize (Json.arr []) = .ok (.Ids []) ∧
    c.get_market_addresses r = .error (.MarketIdsResponse .Addresses) ∧
    c.get_market_ids_map r = .error (.MarketIdsResponse .Map) := by
  have hdec : c.get_market_ids_internal .Addresses r = .ok (.Ids []) := by
    rw [ParclV3ApiClient.get_market_ids_internal, validate_and_deserialize_response,
      validate_response, hs]
    show responseJsonAs MarketIdentifiersResponse.deserialize r = _
    simp only [responseJsonAs, hj]
    rfl
  have hdec2 : c.get_market_ids_internal .Map r = .ok (.Ids []) := hdec
  refine ⟨rfl, ?_, ?_⟩
  · rw [ParclV3ApiClient.get_market_addresses, hdec]
    rfl
  · rw [ParclV3ApiClient.get_market_ids_map, hdec2]
    rfl

/-- Witness for C10 at the concrete empty-array response. -/
theorem empty_array_decodes_as_ids_witness :
    MarketIdentifiersResponse.deserialize (Json.arr []) =
      .ok (.Ids []) ∧
    sampleClient.get_market_addresses emptyArrayResponse =
      .error (.MarketIdsResponse .Addresses) ∧
    sampleClient.get_market_ids_map emptyArrayResponse =
      .error (.MarketIdsResponse .Map) :=
  empty_array_decodes_as_ids emptyArrayResponse sampleClient (by decide) rfl
